import Mathlib

/-!
Shallow embedding of the JWT authentication middleware of the
backend-project repository: the function `protect` of
src/unnamed/part_000 (the auth middleware), together with a model of the
external jsonwebtoken verification primitive it calls and of the JS
string operations it uses. Strings manipulated by the middleware are
embedded as lists of characters so that every operation is computable.
-/

/-- A decoded JWT claim as used by the middleware: the identity field id
(read by the line req.user = decoded.id) and the expiration time exp
(checked by the library during verification). -/
structure Claim where
  id : String
  exp : Nat
deriving DecidableEq, Repr

/-- Abstract view of a token string: either it is a well-formed token
signed over a claim with a secret, or it is malformed. The cryptographic
structure of tokens is opaque to the middleware, so it is abstracted into
a decomposition function, `JwtModel.parse`. -/
inductive TokenView where
  | signed (claim : Claim) (secret : String) : TokenView
  | malformed : TokenView
deriving DecidableEq, Repr

/-- Abstract model of the token format: how a token string decomposes
into a signed claim (with the secret that signed it) or fails to. -/
structure JwtModel where
  parse : List Char → TokenView

/-- Model of the external library call jwt.verify(token, secret) at
clock time `now` (line 13 of the middleware): it throws (`Except.error`)
when the token is empty or absent, when the secret is undefined, when
the token is malformed, when it was signed with a different secret, or
when its claim is expired; otherwise it returns the decoded claim. -/
def jwtVerify (jm : JwtModel) (token : List Char) (secret : Option String)
    (now : Nat) : Except Unit Claim :=
  if token.isEmpty then .error ()
  else
    match secret with
    | none => .error ()
    | some s =>
      match jm.parse token with
      | .malformed => .error ()
      | .signed c sec => if sec = s ∧ now < c.exp then .ok c else .error ()

/-- JavaScript String.split with a one-character separator, over
character lists: it splits at every occurrence of the separator and
keeps empty segments, so "a b c" gives [a, b, c] and "a " gives
[a, empty]. -/
def jsSplit (sep : Char) : List Char → List (List Char)
  | [] => [[]]
  | c :: cs =>
    match jsSplit sep cs with
    | [] => [[]]
    | w :: ws => if c == sep then [] :: w :: ws else (c :: w) :: ws

/-- JavaScript String.startsWith over character lists: the second
argument is the tested leading segment. -/
def startsWithJs : List Char → List Char → Bool
  | _, [] => true
  | [], _ :: _ => false
  | c :: cs, p :: ps => c == p && startsWithJs cs ps

/-- The literal scheme tag "Bearer " (trailing space included) tested by
line 6 of the middleware. -/
def bearerScheme : List Char := ['B', 'e', 'a', 'r', 'e', 'r', ' ']

/-- The token the middleware submits to verification, from line 10:
auth.split(" ")[1], the second field of the space-split of the header.
The JS out-of-range index yields undefined, which jwt.verify rejects
exactly like the empty token this model returns as default. -/
def extractToken (a : List Char) : List Char := (jsSplit ' ' a).getD 1 []

/-- Outcome of one run of the middleware on one request: whether next()
was invoked, the identity attached as req.user, and the response the
middleware itself sent, if any (status code and message body field). -/
structure ProtectResult where
  nextCalled : Bool
  user : Option String
  response : Option (Nat × String)
deriving DecidableEq, Repr

/-- The middleware protect of src/unnamed/part_000. `auth` is
req.headers.authorization (`none` when the header is absent); the falsy
test !auth on line 6 also fires on the empty string. `envSecret` is
process.env.JWT_SECRET as read at request time, `now` is the clock used
by the expiry check, and `nextThrows` records whether the downstream
stage next() throws synchronously — the call to next() sits inside the
try block, so such a throw lands in the catch on line 16. When
verification succeeds, req.user is assigned before next() runs, so the
identity stays attached even if next() throws. -/
def protect (jm : JwtModel) (envSecret : Option String) (now : Nat)
    (auth : Option (List Char)) (nextThrows : Bool) : ProtectResult :=
  match auth with
  | none => ⟨false, none, some (401, "Unauthorized, no token")⟩
  | some a =>
    if a.isEmpty || !(startsWithJs a bearerScheme) then
      ⟨false, none, some (401, "Unauthorized, no token")⟩
    else
      match jwtVerify jm (extractToken a) envSecret now with
      | .error _ => ⟨false, none, some (401, "Invalid or expired token")⟩
      | .ok decoded =>
        if nextThrows then
          ⟨true, some decoded.id, some (401, "Invalid or expired token")⟩
        else
          ⟨true, some decoded.id, none⟩

/-- Modelled from the spec: the paired login flow (the user controller,
which is registered in src/src/routes/user.routes.js but whose source is
not provided) issues tokens "using the same secret and claim format";
`sign` is its issuance function, producing the token string for a claim
and a signing secret. -/
structure IssuerModel extends JwtModel where
  sign : Claim → String → List Char

/-- The description given by the spec of the parsing step, stated as its
own function for comparison with `extractToken`: the entire remainder of
the header value after the first space. -/
def restAfterFirstSpace : List Char → List Char
  | [] => []
  | c :: cs => if c == ' ' then cs else restAfterFirstSpace cs

/-- A concrete token model used to instantiate the abstract theorems:
one recognised token, signed over identity 42 with expiry 100. -/
def demoJwt : JwtModel where
  parse := fun t =>
    if t = ['t', 'o', 'k', '4', '2'] then .signed ⟨"42", 100⟩ "secret"
    else .malformed

/-- A concrete issuer model with a one-token format: the issued token
decomposes back into the claim and secret it was issued for. -/
def demoIssuer : IssuerModel where
  parse := fun t =>
    if t = ['s', 'i', 'g', '1'] then .signed ⟨"u123", 10⟩ "s"
    else .malformed
  sign := fun _ _ => ['s', 'i', 'g', '1']

theorem jsSplit_ne_nil (sep : Char) (l : List Char) : jsSplit sep l ≠ [] := by
  cases l with
  | nil => simp [jsSplit]
  | cons c cs =>
    simp only [jsSplit]
    cases jsSplit sep cs with
    | nil => simp
    | cons w ws => by_cases hc : c == sep <;> simp [hc]

theorem jsSplit_cons_sep (sep : Char) (cs : List Char) :
    jsSplit sep (sep :: cs) = [] :: jsSplit sep cs := by
  simp only [jsSplit]
  cases h : jsSplit sep cs with
  | nil => exact absurd h (jsSplit_ne_nil sep cs)
  | cons w ws => simp

theorem jsSplit_head (sep : Char) (t : List Char) :
    (jsSplit sep t).getD 0 [] = t.takeWhile (fun c => !(c == sep)) := by
  induction t with
  | nil => rfl
  | cons c cs ih =>
    simp only [jsSplit]
    cases h : jsSplit sep cs with
    | nil => exact absurd h (jsSplit_ne_nil sep cs)
    | cons w ws =>
      rw [h] at ih
      by_cases hc : c == sep
      · simp [hc, List.takeWhile_cons]
      · simp only [hc, if_neg, Bool.false_eq_true, not_false_eq_true,
          List.takeWhile_cons, Bool.not_eq_true', List.getD_cons_zero] at ih ⊢
        simp [hc, ih]

theorem jsSplit_noSep_append (sep : Char) (xs t : List Char) (h : sep ∉ xs) :
    jsSplit sep (xs ++ sep :: t) = xs :: jsSplit sep t := by
  induction xs with
  | nil => simpa using jsSplit_cons_sep sep t
  | cons x xs ih =>
    have hx : (x == sep) = false := by
      simp only [List.mem_cons, not_or] at h
      cases hb : x == sep
      · rfl
      · exact absurd (eq_of_beq hb).symm h.1
    have ht : sep ∉ xs := by
      simp only [List.mem_cons, not_or] at h
      exact h.2
    have step : jsSplit sep ((x :: xs) ++ sep :: t)
        = match jsSplit sep (xs ++ sep :: t) with
          | [] => [[]]
          | w :: ws => if x == sep then [] :: w :: ws else (x :: w) :: ws := rfl
    rw [step, ih ht]
    simp [hx]

theorem takeWhile_noSep (sep : Char) (t : List Char) (h : sep ∉ t) :
    t.takeWhile (fun c => !(c == sep)) = t := by
  induction t with
  | nil => rfl
  | cons c cs ih =>
    simp only [List.mem_cons, not_or] at h
    have hc : (c == sep) = false := by
      cases hb : c == sep
      · rfl
      · exact absurd (eq_of_beq hb).symm h.1
    simp [List.takeWhile_cons, hc, ih h.2]

theorem startsWithJs_append (p t : List Char) :
    startsWithJs (p ++ t) p = true := by
  induction p with
  | nil => cases t <;> rfl
  | cons c cs ih => simp [startsWithJs, ih]

theorem startsWithJs_nil_scheme : startsWithJs [] bearerScheme = false := by
  decide

theorem extractToken_scheme (t : List Char) :
    extractToken (bearerScheme ++ t) = t.takeWhile (fun c => !(c == ' ')) := by
  have hb : bearerScheme ++ t = ['B', 'e', 'a', 'r', 'e', 'r'] ++ ' ' :: t := rfl
  rw [extractToken, hb, jsSplit_noSep_append ' ' _ t (by decide)]
  simpa [List.getD_cons_succ] using jsSplit_head ' ' t

theorem isEmpty_false_of_startsWith_scheme (a : List Char)
    (h : startsWithJs a bearerScheme = true) : a.isEmpty = false := by
  cases a with
  | nil => exact absurd h (by decide)
  | cons c cs => rfl

theorem protect_valid_core (jm : JwtModel) (s : String) (now : Nat)
    (tok : List Char) (c : Claim) (nt : Bool)
    (hns : ' ' ∉ tok) (hne : tok ≠ [])
    (hparse : jm.parse tok = .signed c s) (hexp : now < c.exp) :
    protect jm (some s) now (some (bearerScheme ++ tok)) nt =
      if nt then ⟨true, some c.id, some (401, "Invalid or expired token")⟩
      else ⟨true, some c.id, none⟩ := by
  have h1 : startsWithJs (bearerScheme ++ tok) bearerScheme = true :=
    startsWithJs_append bearerScheme tok
  have h2 : (bearerScheme ++ tok).isEmpty = false := rfl
  have h3 : extractToken (bearerScheme ++ tok) = tok := by
    rw [extractToken_scheme, takeWhile_noSep ' ' tok hns]
  have h5 : tok.isEmpty = false := by
    cases tok with
    | nil => exact absurd rfl hne
    | cons c cs => rfl
  have h4 : jwtVerify jm tok (some s) now = .ok c := by
    simp [jwtVerify, h5, hparse, hexp]
  simp [protect, h1, h2, h3, h4]

/-- C1: for every request whose Authorization header is the scheme tag
"Bearer " followed by a token that verifies against the shared secret
(well-formed, signed with that secret, not expired), the middleware
invokes the next stage and the identity attached as req.user equals the
id field of the decoded claim. -/
theorem protect_admits_valid_token (jm : JwtModel) (s : String) (now : Nat)
    (tok : List Char) (c : Claim)
    (hns : ' ' ∉ tok) (hne : tok ≠ [])
    (hparse : jm.parse tok = .signed c s) (hexp : now < c.exp) :
    (protect jm (some s) now (some (bearerScheme ++ tok)) false).nextCalled
        = true ∧
    (protect jm (some s) now (some (bearerScheme ++ tok)) false).user
        = some c.id := by
  rw [protect_valid_core jm s now tok c false hns hne hparse hexp]
  exact ⟨rfl, rfl⟩

theorem protect_admits_valid_token_witness :
    (protect demoJwt (some "secret") 0
        (some (bearerScheme ++ ['t', 'o', 'k', '4', '2'])) false).nextCalled
        = true ∧
    (protect demoJwt (some "secret") 0
        (some (bearerScheme ++ ['t', 'o', 'k', '4', '2'])) false).user
        = some "42" :=
  protect_admits_valid_token demoJwt "secret" 0 ['t', 'o', 'k', '4', '2']
    ⟨"42", 100⟩ (by decide) (by decide) (by decide) (by decide)

/-- C2: invariant — the next stage is invoked only when the header was
present, carried the "Bearer " scheme tag, and the extracted token
verified successfully against the secret in force for the request. -/
theorem protect_forward_only_if_verified (jm : JwtModel)
    (env : Option String) (now : Nat) (auth : Option (List Char))
    (nt : Bool)
    (h : (protect jm env now auth nt).nextCalled = true) :
    ∃ a, auth = some a ∧ startsWithJs a bearerScheme = true ∧
      ∃ c, jwtVerify jm (extractToken a) env now = Except.ok c := by
  match auth with
  | none => simp [protect] at h
  | some a =>
    refine ⟨a, rfl, ?_⟩
    by_cases hg : (a.isEmpty || !(startsWithJs a bearerScheme)) = true
    · rw [protect] at h
      simp only [hg, if_pos] at h
      exact absurd h Bool.false_ne_true
    · have hpre : startsWithJs a bearerScheme = true := by
        cases hb : startsWithJs a bearerScheme
        · exact absurd (by simp [hb]) hg
        · rfl
      refine ⟨hpre, ?_⟩
      cases hv : jwtVerify jm (extractToken a) env now with
      | error e => rw [protect] at h; simp [hg, hv] at h
      | ok c => exact ⟨c, rfl⟩

theorem protect_forward_only_if_verified_witness :
    ∃ a, some (bearerScheme ++ ['t', 'o', 'k', '4', '2']) = some a ∧
      startsWithJs a bearerScheme = true ∧
      ∃ c, jwtVerify demoJwt (extractToken a) (some "secret") 0
        = Except.ok c :=
  protect_forward_only_if_verified demoJwt (some "secret") 0
    (some (bearerScheme ++ ['t', 'o', 'k', '4', '2'])) false (by decide)

/-- C3: a request with no Authorization header, or one whose header does
not start with "Bearer ", is answered 401 with message "Unauthorized, no
token", the next stage is not invoked, and no identity is attached; the
result is the same for every token model and every secret, so
verification plays no part. -/
theorem protect_rejects_missing_or_nonbearer (jm : JwtModel)
    (env : Option String) (now : Nat) (nt : Bool)
    (auth : Option (List Char))
    (h : auth = none ∨
      ∃ a, auth = some a ∧ startsWithJs a bearerScheme = false) :
    protect jm env now auth nt
      = ⟨false, none, some (401, "Unauthorized, no token")⟩ := by
  rcases h with h | ⟨a, rfl, ha⟩
  · rw [h]; rfl
  · simp [protect, ha]

theorem protect_rejects_missing_or_nonbearer_witness :
    protect demoJwt (some "secret") 0
        (some ['B', 'a', 's', 'i', 'c', ' ', 'x', 'y', 'z']) false
      = ⟨false, none, some (401, "Unauthorized, no token")⟩ :=
  protect_rejects_missing_or_nonbearer demoJwt (some "secret") 0 false
    (some ['B', 'a', 's', 'i', 'c', ' ', 'x', 'y', 'z'])
    (Or.inr ⟨['B', 'a', 's', 'i', 'c', ' ', 'x', 'y', 'z'], rfl, by decide⟩)

/-- C4: a request whose header carries the "Bearer " scheme tag but whose
extracted token fails verification — for any reason: wrong secret,
expired, malformed, empty — is answered 401 with the single message
"Invalid or expired token", the next stage is not invoked, and no
identity is attached; every failure cause yields this same observable
outcome. -/
theorem protect_rejects_unverified_bearer (jm : JwtModel)
    (env : Option String) (now : Nat) (nt : Bool) (a : List Char)
    (hpre : startsWithJs a bearerScheme = true)
    (hfail : jwtVerify jm (extractToken a) env now = Except.error ()) :
    protect jm env now (some a) nt
      = ⟨false, none, some (401, "Invalid or expired token")⟩ := by
  have hne : a.isEmpty = false := isEmpty_false_of_startsWith_scheme a hpre
  simp [protect, hne, hpre, hfail]

theorem protect_rejects_unverified_bearer_witness :
    protect demoJwt (some "secret") 0 (some (bearerScheme ++ ['z'])) false
      = ⟨false, none, some (401, "Invalid or expired token")⟩ :=
  protect_rejects_unverified_bearer demoJwt (some "secret") 0 false
    (bearerScheme ++ ['z']) (by decide) rfl

/-- C5 counterexample: on the header "Bearer ab cd", which contains more
than one space, the token the middleware submits to verification (the
second field of the space-split, here "ab") is not the entire remainder
of the header after the first space (here "ab cd"), so the claim fails
as stated. -/
theorem extractToken_multispace_counterexample :
    extractToken (bearerScheme ++ ['a', 'b', ' ', 'c', 'd'])
      ≠ restAfterFirstSpace (bearerScheme ++ ['a', 'b', ' ', 'c', 'd']) := by
  decide

/-- C5 amended: for every header of the form "Bearer " followed by a
remainder, the token submitted to verification is the remainder up to
(not including) its first space — the second field of splitting the
header on every space — and hence equals the whole remainder exactly
when the remainder contains no further space. -/
theorem extractToken_second_field (t : List Char) :
    extractToken (bearerScheme ++ t)
      = t.takeWhile (fun c => !(c == ' ')) :=
  extractToken_scheme t

/-- C6 counterexample: with a token that verifies successfully and a
downstream stage that throws synchronously, one execution of the
middleware both invokes the next stage and produces a 401 rejection
response, so the claim fails as stated. -/
theorem protect_next_throw_both_outcomes :
    (protect demoJwt (some "secret") 0
        (some (bearerScheme ++ ['t', 'o', 'k', '4', '2'])) true).nextCalled
      = true ∧
    (protect demoJwt (some "secret") 0
        (some (bearerScheme ++ ['t', 'o', 'k', '4', '2'])) true).response
      = some (401, "Invalid or expired token") := by
  decide

/-- C6 amended: for every request whose downstream stage does not throw
synchronously, the middleware reaches exactly one terminal outcome:
either it invokes the next stage and sends no response of its own, or it
does not invoke the next stage and sends a 401 response; being a total
function, it lets no verification exception escape in any case. -/
theorem protect_exclusive_outcome (jm : JwtModel) (env : Option String)
    (now : Nat) (auth : Option (List Char)) :
    ((protect jm env now auth false).nextCalled = true ∧
      (protect jm env now auth false).response = none) ∨
    ((protect jm env now auth false).nextCalled = false ∧
      ∃ m, (protect jm env now auth false).response = some (401, m)) := by
  match auth with
  | none => exact Or.inr ⟨rfl, "Unauthorized, no token", rfl⟩
  | some a =>
    by_cases hg : (a.isEmpty || !(startsWithJs a bearerScheme)) = true
    · have hp : protect jm env now (some a) false
          = ⟨false, none, some (401, "Unauthorized, no token")⟩ := by
        simp [protect, hg]
      rw [hp]
      exact Or.inr ⟨rfl, "Unauthorized, no token", rfl⟩
    · have hg2 : (a.isEmpty || !(startsWithJs a bearerScheme)) = false := by
        cases hb : a.isEmpty || !(startsWithJs a bearerScheme)
        · rfl
        · exact absurd hb hg
      cases hv : jwtVerify jm (extractToken a) env now with
      | error e =>
        have hp : protect jm env now (some a) false
            = ⟨false, none, some (401, "Invalid or expired token")⟩ := by
          simp [protect, hg2, hv]
        rw [hp]
        exact Or.inr ⟨rfl, "Invalid or expired token", rfl⟩
      | ok c =>
        have hp : protect jm env now (some a) false
            = ⟨true, some c.id, none⟩ := by
          simp [protect, hg2, hv]
        rw [hp]
        exact Or.inl ⟨rfl, rfl⟩

/-- C7: a request whose Authorization header is exactly "Bearer " — the
scheme tag with an empty token — passes the scheme check, the split
yields the empty token, verification throws on it, and the middleware
answers 401 with "Invalid or expired token" (not the no-token message),
for every token model and secret. -/
theorem protect_empty_token_invalid (jm : JwtModel) (env : Option String)
    (now : Nat) (nt : Bool) :
    protect jm env now (some bearerScheme) nt
      = ⟨false, none, some (401, "Invalid or expired token")⟩ := by
  have h1 : startsWithJs bearerScheme bearerScheme = true := by decide
  have h2 : bearerScheme.isEmpty = false := by decide
  have h3 : extractToken bearerScheme = [] := by decide
  have hv : jwtVerify jm [] env now = Except.error () := rfl
  simp [protect, h1, h2, h3, hv]

/-- C9: when the extracted token verifies successfully but the downstream
stage throws synchronously, the middleware's catch converts the throw
into a 401 "Invalid or expired token" response, with the next stage
having been invoked and the identity already attached. -/
theorem protect_downstream_throw_401 (jm : JwtModel) (env : Option String)
    (now : Nat) (a : List Char) (c : Claim)
    (hpre : startsWithJs a bearerScheme = true)
    (hok : jwtVerify jm (extractToken a) env now = Except.ok c) :
    protect jm env now (some a) true
      = ⟨true, some c.id, some (401, "Invalid or expired token")⟩ := by
  have hne : a.isEmpty = false := isEmpty_false_of_startsWith_scheme a hpre
  simp [protect, hne, hpre, hok]

theorem protect_downstream_throw_401_witness :
    protect demoJwt (some "secret") 0
        (some (bearerScheme ++ ['t', 'o', 'k', '4', '2'])) true
      = ⟨true, some "42", some (401, "Invalid or expired token")⟩ :=
  protect_downstream_throw_401 demoJwt (some "secret") 0
    (bearerScheme ++ ['t', 'o', 'k', '4', '2']) ⟨"42", 100⟩
    (by decide) rfl

/-- C10: when the JWT_SECRET environment variable is unset at request
time, verification throws for every token, so every request carrying a
"Bearer "-prefixed header is answered 401 "Invalid or expired token", no
request is admitted, and the middleware still returns normally. -/
theorem protect_unset_secret_rejects (jm : JwtModel) (now : Nat)
    (a : List Char) (nt : Bool)
    (hpre : startsWithJs a bearerScheme = true) :
    protect jm none now (some a) nt
      = ⟨false, none, some (401, "Invalid or expired token")⟩ := by
  have hne : a.isEmpty = false := isEmpty_false_of_startsWith_scheme a hpre
  have hv : jwtVerify jm (extractToken a) none now = Except.error () := by
    rw [jwtVerify]
    by_cases he : (extractToken a).isEmpty = true
    · simp [he]
    · simp [he]
  simp [protect, hne, hpre, hv]

theorem protect_unset_secret_rejects_witness :
    protect demoJwt none 0 (some (bearerScheme ++ ['x'])) false
      = ⟨false, none, some (401, "Invalid or expired token")⟩ :=
  protect_unset_secret_rejects demoJwt 0 (bearerScheme ++ ['x']) false
    (by decide)

/-- C8: round-trip with the paired login flow — a token issued by the
issuer for an identity with the shared secret (satisfying the issuance
contract that the token decomposes back into the issued claim, is
non-empty and space-free), when presented before expiry, is admitted and
the attached identity equals the original identity string. -/
theorem login_roundtrip_admits (im : IssuerModel) (idStr s : String)
    (e now : Nat)
    (hrt : im.parse (im.sign ⟨idStr, e⟩ s) = .signed ⟨idStr, e⟩ s)
    (hns : ' ' ∉ im.sign ⟨idStr, e⟩ s)
    (hne : im.sign ⟨idStr, e⟩ s ≠ [])
    (hnow : now < e) :
    (protect im.toJwtModel (some s) now
        (some (bearerScheme ++ im.sign ⟨idStr, e⟩ s)) false).nextCalled
        = true ∧
    (protect im.toJwtModel (some s) now
        (some (bearerScheme ++ im.sign ⟨idStr, e⟩ s)) false).user
        = some idStr := by
  rw [protect_valid_core im.toJwtModel s now (im.sign ⟨idStr, e⟩ s)
    ⟨idStr, e⟩ false hns hne hrt hnow]
  exact ⟨rfl, rfl⟩

theorem login_roundtrip_admits_witness :
    (protect demoIssuer.toJwtModel (some "s") 3
        (some (bearerScheme ++ demoIssuer.sign ⟨"u123", 10⟩ "s"))
        false).nextCalled = true ∧
    (protect demoIssuer.toJwtModel (some "s") 3
        (some (bearerScheme ++ demoIssuer.sign ⟨"u123", 10⟩ "s"))
        false).user = some "u123" :=
  login_roundtrip_admits demoIssuer "u123" "s" 10 3
    (by decide) (by decide) (by decide) (by decide)
